import Mathlib

/-!
Verification of the integer value-range-propagation domain
(staticcheck/vrp/int.go): extended integers with infinities, the interval
lattice over them, and the constraint evaluators.
-/

namespace VRP

/-- Extended integer: the Go struct Z (int.go lines 26-29) holds an infinity
flag and a big.Int pointer; the reachable values are the finite integers made
by NewZ and the two sentinels NInfinity (nInf) and PInfinity (pInf). The
arbitrary-precision big.Int is modelled by Int. -/
inductive Z : Type where
  | nInf : Z
  | fin : Int → Z
  | pInf : Z
deriving DecidableEq, Repr

/-- Go Z.Infinite (int.go line 35). -/
def Z.Infinite : Z → Bool
  | .fin _ => false
  | _ => true

/-- Go Z.Sign (int.go line 108): the infinity flag when infinite, else the
sign of the finite integer. -/
def Z.Sign : Z → Int
  | .nInf => -1
  | .pInf => 1
  | .fin n => Int.sign n

/-- Go Z.Negate (int.go line 96): swaps the sentinels, negates a finite value. -/
def Z.Negate : Z → Z
  | .pInf => .nInf
  | .nInf => .pInf
  | .fin n => .fin (-n)

/-- Go Z.Cmp (int.go line 125): same-sign infinities compare equal, an
infinity compares beyond everything else, finite values compare as integers
(big.Int Cmp returns -1, 0 or 1). -/
def Z.Cmp : Z → Z → Int
  | .nInf, .nInf => 0
  | .pInf, .pInf => 0
  | .pInf, _ => 1
  | .nInf, _ => -1
  | _, .nInf => 1
  | _, .pInf => -1
  | .fin a, .fin b => if a < b then -1 else if b < a then 1 else 0

/-- Go Z.Mul (int.go line 81): exact-zero absorption first; else, if either
operand is infinite, the sentinel whose flag is the product of Signs (never
zero on this branch, since a finite zero was returned above and an infinite
Sign is plus or minus one); else exact integer multiplication. -/
def Z.Mul (z1 z2 : Z) : Z :=
  if z1 = .fin 0 ∨ z2 = .fin 0 then .fin 0
  else
    match z1, z2 with
    | .fin a, .fin b => .fin (a * b)
    | a, b => if a.Sign * b.Sign = 1 then .pInf else .nInf

/-- Go Z.Add body after the negative-second-operand flip (int.go lines 43-59);
none models the panic on an undefined combination. -/
def Z.addPos (z1 z2 : Z) : Option Z :=
  if z1 = .nInf then some .nInf
  else if z1 = .pInf then some .pInf
  else if z2 = .pInf then some .pInf
  else
    match z1, z2 with
    | .fin a, .fin b => some (.fin (a + b))
    | _, _ => none

/-- Go Z.Sub body after the negative-second-operand flip (int.go lines 66-78);
the Go result with the flag of z1 is z1 itself, since z1 is infinite there. -/
def Z.subPos (z1 z2 : Z) : Option Z :=
  match z1, z2 with
  | .fin a, .fin b => some (.fin (a - b))
  | z1, z2 =>
    if z1 ≠ .pInf ∧ z2 = .pInf then some .nInf
    else if z1.Infinite = true ∧ z2.Infinite = false then some z1
    else none

/-- Go Z.Add (int.go line 39): a negative second operand is flipped through
Sub with its negation, and Sub with that non-negative operand runs subPos. -/
def Z.Add (z1 z2 : Z) : Option Z :=
  if z2.Sign = -1 then z1.subPos z2.Negate else z1.addPos z2

/-- Go Z.Sub (int.go line 62): a negative second operand is flipped through
Add with its negation, and Add with that non-negative operand runs addPos. -/
def Z.Sub (z1 z2 : Z) : Option Z :=
  if z2.Sign = -1 then z1.addPos z2.Negate else z1.subPos z2

/-- Go Max (int.go line 144) at two arguments: the loop keeps the candidate
when it compares strictly greater. -/
def Max2 (a b : Z) : Z := if b.Cmp a = 1 then b else a

/-- Go Min (int.go line 160) at two arguments. -/
def Min2 (a b : Z) : Z := if b.Cmp a = -1 then b else a

/-- Go Max at four arguments: the loop folds the two-argument step from the
left. -/
def Max4 (a b c d : Z) : Z := Max2 (Max2 (Max2 a b) c) d

/-- Go Min at four arguments. -/
def Min4 (a b c d : Z) : Z := Min2 (Min2 (Min2 a b) c) d

/-- Go Interval (int.go lines 189-193). The Go zero value of Interval, the
unknown range, carries the zero Z whose arithmetic would dereference a nil
big.Int; it is modelled here with fin 0 bounds, which no evaluation path of
the verified claims reads. -/
structure Interval where
  known : Bool
  lower : Z
  upper : Z
deriving DecidableEq, Repr

/-- The Go zero value of Interval: the unknown range (known = false). -/
def Interval.unknown : Interval := ⟨false, .fin 0, .fin 0⟩

/-- Go EmptyI (int.go line 178). -/
def EmptyI : Interval := ⟨true, .pInf, .nInf⟩

/-- Go Interval.Empty (int.go line 206). -/
def Interval.Empty (i : Interval) : Bool :=
  i.lower == Z.pInf && i.upper == Z.nInf

/-- Go NewInterval (int.go line 195): the normalizing constructor. -/
def NewInterval (l u : Z) : Interval :=
  if u.Cmp l = -1 then EmptyI else ⟨true, l, u⟩

/-- Go Interval.Intersection (int.go line 214). -/
def Interval.Intersection (i1 i2 : Interval) : Interval :=
  if i1.known = false then i2
  else if i2.known = false then i1
  else if i1.Empty = true ∨ i2.Empty = true then EmptyI
  else
    let i3 := NewInterval (Max2 i1.lower i2.lower) (Min2 i1.upper i2.upper)
    if i3.lower.Cmp i3.upper = 1 then EmptyI else i3

/-- Go Interval.Union (int.go line 231); the polymorphic Range argument is
always an Interval in the integer domain, so the non-Interval downcast branch
(which substitutes EmptyI) is left out. -/
def Interval.Union (i1 i2 : Interval) : Interval :=
  if i1.Empty = true ∨ i1.known = false then i2
  else if i2.Empty = true ∨ i2.known = false then i1
  else NewInterval (Min2 i1.lower i2.lower) (Max2 i1.upper i2.upper)

/-- Go Interval.Add (int.go line 245); none models a panic inside Z.Add. -/
def Interval.Add (i1 i2 : Interval) : Option Interval :=
  if i1.Empty = true ∨ i2.Empty = true then some EmptyI
  else
    match i1.lower.Add i2.lower, i1.upper.Add i2.upper with
    | some l, some u => some (NewInterval l u)
    | _, _ => none

/-- Go Interval.Sub (int.go line 253), with the cross terms. -/
def Interval.Sub (i1 i2 : Interval) : Option Interval :=
  if i1.Empty = true ∨ i2.Empty = true then some EmptyI
  else
    match i1.lower.Sub i2.upper, i1.upper.Sub i2.lower with
    | some l, some u => some (NewInterval l u)
    | _, _ => none

/-- Go Interval.Mul (int.go line 261): min and max of the four corner
products. Z.Mul never panics on well-formed Z, so the Option is only for
uniformity with Add and Sub as a constraint combining function. -/
def Interval.Mul (i1 i2 : Interval) : Option Interval :=
  if i1.Empty = true ∨ i2.Empty = true then some EmptyI
  else
    some (NewInterval
      (Min4 (i1.lower.Mul i2.lower) (i1.lower.Mul i2.upper)
        (i1.upper.Mul i2.lower) (i1.upper.Mul i2.upper))
      (Max4 (i1.lower.Mul i2.lower) (i1.lower.Mul i2.upper)
        (i1.upper.Mul i2.lower) (i1.upper.Mul i2.upper)))

/-- Integer type information of an ssa.Value: signedness and the byte size
that types.StdSizes with WordSize 8 computes for it (int.go lines 343-354),
carried directly on the modelled value. -/
structure VType where
  unsigned : Bool
  size : Nat
deriving DecidableEq, Repr

/-- An ssa.Value: an opaque identifier carrying its integer type. -/
structure Value where
  id : Nat
  ty : VType
deriving DecidableEq, Repr

/-- Go InfinityFor (int.go line 180): the full range of the type of a value. -/
def InfinityFor (v : Value) : Interval :=
  if v.ty.unsigned = true then NewInterval (.fin 0) .pInf
  else NewInterval .nInf .pInf

/-- The value-to-range mapping owned by the external scheduler. -/
structure Graph where
  ranges : Value → Option Interval

/-- Modelled from the spec: Graph.Range, the read accessor of the external
graph (spec section 6), is not part of int.go. Following the conversion
example of spec section 8 (an unsigned destination with no computed range is
treated as the full unsigned range) and the in-source lookup pattern of
FutureIntersectionConstraint.Resolve (int.go lines 432-435), a value absent
from the mapping yields InfinityFor of the value. -/
def Graph.Range (g : Graph) (v : Value) : Interval :=
  (g.ranges v).getD (InfinityFor v)

/-- Go ArithmeticConstraint (int.go lines 283-289): two operands, a target,
and the interval combining function Fn (Interval.Add, Sub or Mul). -/
structure ArithmeticConstraint where
  A : Value
  B : Value
  Y : Value
  Fn : Interval → Interval → Option Interval

/-- Go ArithmeticConstraint.Eval (int.go line 303): unknown operands give the
zero-value Interval (the unknown range), else Fn combines the two ranges. -/
def ArithmeticConstraint.Eval (c : ArithmeticConstraint) (g : Graph) :
    Option Interval :=
  let i1 := g.Range c.A
  let i2 := g.Range c.B
  if i1.known = false ∨ i2.known = false then some Interval.unknown
  else c.Fn i1 i2

/-- Go IntConversionConstraint (int.go lines 333-336). -/
structure IntConversionConstraint where
  X : Value
  Y : Value

/-- Go IntConversionConstraint.Eval (int.go line 342): width and signedness
aware refinement, first match wins, with a pass-through fallback. -/
def IntConversionConstraint.Eval (c : IntConversionConstraint) (g : Graph) :
    Interval :=
  let fromI := g.Range c.X
  let toI := g.Range c.Y
  let fromB := c.X.ty.size
  let toB := c.Y.ty.size
  if fromI.known = false then toI
  else if toI.known = false then fromI
  else if c.X.ty.unsigned = true ∧ fromB < toB then
    NewInterval (Max2 (.fin 0) fromI.lower)
      (Min2 (.fin ((2 : Int) ^ (8 * fromB) - 1)) toI.upper)
  else if c.X.ty.unsigned = false ∧ c.Y.ty.unsigned = false ∧ fromB < toB then
    NewInterval (Max2 .nInf fromI.lower)
      (Min2 (.fin ((2 : Int) ^ (8 * fromB) - 1)) toI.upper)
  else fromI

/-- Go IntersectionConstraint (int.go lines 463-467). -/
structure IntersectionConstraint where
  X : Value
  Y : Value
  I : Interval

/-- Go IntersectionConstraint.Eval (int.go line 473): an unknown source range
gives the literal bound itself. -/
def IntersectionConstraint.Eval (c : IntersectionConstraint) (g : Graph) :
    Interval :=
  let xi := g.Range c.X
  if xi.known = false then c.I else xi.Intersection c.I

/-- Go FutureIntersectionConstraint (int.go lines 397-407); ranges is the
private snapshot mapping consulted at resolution time. -/
structure FutureIntersectionConstraint where
  ranges : Value → Option Interval
  X : Value
  Y : Value
  lower : Option Value
  lowerOffset : Z
  upper : Option Value
  upperOffset : Z
  I : Interval
  resolved : Bool

/-- Go FutureIntersectionConstraint.Eval (int.go line 424): intersect the
source range with the bound I, with no knownness check on the source. -/
def FutureIntersectionConstraint.Eval (c : FutureIntersectionConstraint)
    (g : Graph) : Interval :=
  (g.Range c.X).Intersection c.I

/-- Lower bound computed by Go FutureIntersectionConstraint.Resolve (int.go
lines 430-439): NInfinity when no lower dependency is present, else the
lower component of the dependency range (InfinityFor on a map miss) plus
lowerOffset; none models a panic inside Z.Add. -/
def FutureIntersectionConstraint.resolveLower
    (c : FutureIntersectionConstraint) : Option Z :=
  match c.lower with
  | none => some .nInf
  | some v => (((c.ranges v).getD (InfinityFor v)).lower).Add c.lowerOffset

/-- Upper bound computed by Resolve (int.go lines 431, 440-447). -/
def FutureIntersectionConstraint.resolveUpper
    (c : FutureIntersectionConstraint) : Option Z :=
  match c.upper with
  | none => some .pInf
  | some v => (((c.ranges v).getD (InfinityFor v)).upper).Add c.upperOffset

/-- Go FutureIntersectionConstraint.Resolve (int.go line 429): the interval
written once into the bound c.I. -/
def FutureIntersectionConstraint.Resolve
    (c : FutureIntersectionConstraint) : Option Interval :=
  match c.resolveLower, c.resolveUpper with
  | some l, some u => some (NewInterval l u)
  | _, _ => none

/-- Go IntervalConstraint (int.go lines 485-488): the leaf constraint. -/
structure IntervalConstraint where
  Y : Value
  I : Interval

/-- Go IntervalConstraint.Eval (int.go line 494): always the fixed literal
interval. -/
def IntervalConstraint.Eval (c : IntervalConstraint) (_g : Graph) : Interval :=
  c.I

/-- Reachable intervals: the unknown zero value, the canonical empty
interval, or a known interval whose bounds do not cross (exactly what
NewInterval returns). -/
def Interval.WF (i : Interval) : Prop :=
  i = Interval.unknown ∨ i = EmptyI ∨ (i.known = true ∧ i.lower.Cmp i.upper ≠ 1)

/-- Comparing a value with itself gives zero. -/
lemma Z.Cmp_self (a : Z) : a.Cmp a = 0 := by
  cases a <;> simp [Z.Cmp]

/-- Cmp is antisymmetric: swapping the arguments negates the result. -/
lemma Z.Cmp_swap (a b : Z) : a.Cmp b = -(b.Cmp a) := by
  cases a <;> cases b <;> simp [Z.Cmp]
  rename_i x y
  rcases lt_trichotomy x y with h | h | h
  · simp [h, lt_asymm h]
  · subst h
    simp
  · simp [h, lt_asymm h]

/-- Cmp returns zero exactly on equal values. -/
lemma Z.Cmp_eq_zero_iff {a b : Z} : a.Cmp b = 0 ↔ a = b := by
  cases a <;> cases b <;> simp [Z.Cmp]
  rename_i x y
  constructor
  · intro h
    split_ifs at h <;> omega
  · intro h
    subst h
    simp

/-- Cmp takes only the three values minus one, zero, one. -/
lemma Z.Cmp_cases (a b : Z) : a.Cmp b = -1 ∨ a.Cmp b = 0 ∨ a.Cmp b = 1 := by
  cases a <;> cases b <;>
    first
    | (simp only [Z.Cmp]; split_ifs <;> omega)
    | (simp [Z.Cmp])

/-- A strict comparison one way is a strict comparison the other way. -/
lemma Z.Cmp_eq_one_iff {a b : Z} : a.Cmp b = 1 ↔ b.Cmp a = -1 := by
  rw [Z.Cmp_swap a b]
  omega

/-- Order on Z through Cmp: not strictly greater. -/
def Z.le (a b : Z) : Prop := a.Cmp b ≠ 1

instance (a b : Z) : Decidable (a.le b) := by unfold Z.le; infer_instance

lemma Z.le_refl (a : Z) : a.le a := by
  unfold Z.le
  rw [Z.Cmp_self]
  omega

lemma Z.le_trans {a b c : Z} (h1 : a.le b) (h2 : b.le c) : a.le c := by
  unfold Z.le at h1 h2 ⊢
  cases a <;> cases b <;> cases c <;> simp only [Z.Cmp] at h1 h2 ⊢ <;> omega

lemma Max2_comm (a b : Z) : Max2 a b = Max2 b a := by
  unfold Max2
  rcases Z.Cmp_cases a b with h | h | h
  · have hb : b.Cmp a = 1 := Z.Cmp_eq_one_iff.mpr h
    rw [if_pos hb, if_neg (by omega : ¬a.Cmp b = 1)]
  · rw [Z.Cmp_eq_zero_iff.mp h]
  · have hb : b.Cmp a = -1 := Z.Cmp_eq_one_iff.mp h
    rw [if_neg (by omega : ¬b.Cmp a = 1), if_pos h]

lemma Min2_comm (a b : Z) : Min2 a b = Min2 b a := by
  unfold Min2
  rcases Z.Cmp_cases a b with h | h | h
  · have hb : b.Cmp a = 1 := Z.Cmp_eq_one_iff.mpr h
    rw [if_neg (by omega : ¬b.Cmp a = -1), if_pos h]
  · rw [Z.Cmp_eq_zero_iff.mp h]
  · have hb : b.Cmp a = -1 := Z.Cmp_eq_one_iff.mp h
    rw [if_pos hb, if_neg (by omega : ¬a.Cmp b = -1)]

lemma Max2_self (a : Z) : Max2 a a = a := by
  unfold Max2
  exact ite_self a

lemma Min2_self (a : Z) : Min2 a a = a := by
  unfold Min2
  exact ite_self a

lemma le_Max2_left (a b : Z) : a.le (Max2 a b) := by
  unfold Max2
  by_cases h : b.Cmp a = 1
  · rw [if_pos h]
    unfold Z.le
    have := Z.Cmp_eq_one_iff.mp h
    omega
  · rw [if_neg h]
    exact Z.le_refl a

lemma le_Max2_right (a b : Z) : b.le (Max2 a b) := by
  unfold Max2
  by_cases h : b.Cmp a = 1
  · rw [if_pos h]
    exact Z.le_refl b
  · rw [if_neg h]
    exact h

lemma Max2_mem (a b : Z) : Max2 a b = a ∨ Max2 a b = b := by
  unfold Max2
  by_cases h : b.Cmp a = 1
  · right; rw [if_pos h]
  · left; rw [if_neg h]

lemma Min2_le_left (a b : Z) : (Min2 a b).le a := by
  unfold Min2
  by_cases h : b.Cmp a = -1
  · rw [if_pos h]
    unfold Z.le
    omega
  · rw [if_neg h]
    exact Z.le_refl a

lemma Min2_le_right (a b : Z) : (Min2 a b).le b := by
  unfold Min2
  by_cases h : b.Cmp a = -1
  · rw [if_pos h]
    exact Z.le_refl b
  · rw [if_neg h]
    intro hc
    exact h (Z.Cmp_eq_one_iff.mp hc)

lemma Min2_mem (a b : Z) : Min2 a b = a ∨ Min2 a b = b := by
  unfold Min2
  by_cases h : b.Cmp a = -1
  · right; rw [if_pos h]
  · left; rw [if_neg h]

lemma Min4_le_each (a b c d : Z) :
    (Min4 a b c d).le a ∧ (Min4 a b c d).le b ∧
    (Min4 a b c d).le c ∧ (Min4 a b c d).le d := by
  unfold Min4
  refine ⟨?_, ?_, ?_, Min2_le_right _ _⟩
  · exact Z.le_trans (Min2_le_left _ _) (Z.le_trans (Min2_le_left _ _) (Min2_le_left _ _))
  · exact Z.le_trans (Min2_le_left _ _) (Z.le_trans (Min2_le_left _ _) (Min2_le_right _ _))
  · exact Z.le_trans (Min2_le_left _ _) (Min2_le_right _ _)

lemma le_Max4_each (a b c d : Z) :
    a.le (Max4 a b c d) ∧ b.le (Max4 a b c d) ∧
    c.le (Max4 a b c d) ∧ d.le (Max4 a b c d) := by
  unfold Max4
  refine ⟨?_, ?_, ?_, le_Max2_right _ _⟩
  · exact Z.le_trans (Z.le_trans (le_Max2_left _ _) (le_Max2_left _ _)) (le_Max2_left _ _)
  · exact Z.le_trans (Z.le_trans (le_Max2_right _ _) (le_Max2_left _ _)) (le_Max2_left _ _)
  · exact Z.le_trans (le_Max2_right _ _) (le_Max2_left _ _)

lemma Min4_mem (a b c d : Z) :
    Min4 a b c d = a ∨ Min4 a b c d = b ∨ Min4 a b c d = c ∨ Min4 a b c d = d := by
  unfold Min4
  rcases Min2_mem (Min2 (Min2 a b) c) d with h | h
  · rw [h]
    rcases Min2_mem (Min2 a b) c with h2 | h2
    · rw [h2]
      rcases Min2_mem a b with h3 | h3
      · exact Or.inl h3
      · exact Or.inr (Or.inl h3)
    · exact Or.inr (Or.inr (Or.inl h2))
  · exact Or.inr (Or.inr (Or.inr h))

lemma Max4_mem (a b c d : Z) :
    Max4 a b c d = a ∨ Max4 a b c d = b ∨ Max4 a b c d = c ∨ Max4 a b c d = d := by
  unfold Max4
  rcases Max2_mem (Max2 (Max2 a b) c) d with h | h
  · rw [h]
    rcases Max2_mem (Max2 a b) c with h2 | h2
    · rw [h2]
      rcases Max2_mem a b with h3 | h3
      · exact Or.inl h3
      · exact Or.inr (Or.inl h3)
    · exact Or.inr (Or.inr (Or.inl h2))
  · exact Or.inr (Or.inr (Or.inr h))

/-- A known interval whose bounds do not cross is not the empty interval. -/
lemma Interval.Empty_eq_false {i : Interval} (h : i.lower.Cmp i.upper ≠ 1) :
    i.Empty = false := by
  unfold Interval.Empty
  by_cases hl : i.lower = Z.pInf
  · by_cases hu : i.upper = Z.nInf
    · exfalso
      apply h
      rw [hl, hu]
      rfl
    · simp [hu]
  · simp [hl]

lemma Interval.unknown_known : Interval.unknown.known = false := rfl

lemma Interval.unknown_Empty : Interval.unknown.Empty = false := rfl

lemma EmptyI_known : EmptyI.known = true := rfl

lemma EmptyI_Empty : EmptyI.Empty = true := rfl

/-- A signed 8-byte integer type, used by the concrete evaluations below. -/
def i64T : VType := ⟨false, 8⟩

def v0 : Value := ⟨0, i64T⟩

def v1 : Value := ⟨1, i64T⟩

def v2 : Value := ⟨2, i64T⟩

/-- An add constraint computing v2 from v0 and v1. -/
def cAdd : ArithmeticConstraint := ⟨v0, v1, v2, Interval.Add⟩

/-- A mapping with v0 unknown and every other value at the range one to two. -/
def g5unknown : Graph :=
  ⟨fun v => if v.id = 0 then some Interval.unknown
    else some ⟨true, Z.fin 1, Z.fin 2⟩⟩

/-- A mapping with v0 empty and every other value at the range one to two. -/
def g5empty : Graph :=
  ⟨fun v => if v.id = 0 then some EmptyI
    else some ⟨true, Z.fin 1, Z.fin 2⟩⟩

/-- A mapping with v0 unknown and every other value empty. -/
def g10 : Graph :=
  ⟨fun v => if v.id = 0 then some Interval.unknown else some EmptyI⟩

/-- C7: for every pair of extended integers where at least one is the exact
finite value zero, Mul returns zero, even when the other operand is an
infinity: the zero absorption check takes priority over the infinity
sign-product rule. -/
theorem C7_mul_zero_absorption (z1 z2 : Z) (h : z1 = Z.fin 0 ∨ z2 = Z.fin 0) :
    z1.Mul z2 = Z.fin 0 := by
  unfold Z.Mul
  rw [if_pos h]

/-- Witness for C7 at an infinite co-operand on either side. -/
theorem C7_mul_zero_absorption_witness :
    Z.pInf.Mul (Z.fin 0) = Z.fin 0 ∧ (Z.fin 0).Mul Z.nInf = Z.fin 0 :=
  ⟨C7_mul_zero_absorption Z.pInf (Z.fin 0) (Or.inr rfl),
   C7_mul_zero_absorption (Z.fin 0) Z.nInf (Or.inl rfl)⟩

/-- C8: NewInterval with crossed bounds (lower strictly greater than upper
under Cmp) yields the canonical empty interval, never an inconsistent
concrete one. -/
theorem C8_newinterval_normalizes (l u : Z) (h : l.Cmp u = 1) :
    NewInterval l u = EmptyI := by
  unfold NewInterval
  rw [if_pos (Z.Cmp_eq_one_iff.mp h)]

/-- Witness for C8 at lower one, upper zero. -/
theorem C8_newinterval_normalizes_witness :
    (Z.fin 1).Cmp (Z.fin 0) = 1 ∧ NewInterval (Z.fin 1) (Z.fin 0) = EmptyI :=
  ⟨by decide, C8_newinterval_normalizes (Z.fin 1) (Z.fin 0) (by decide)⟩

/-- C1: positive infinity absorbs every finite addend, and the
PInfinity-sided opposite mixes panic (none); however NInfinity.Add PInfinity
and NInfinity.Sub NInfinity return NInfinity instead of panicking, because
Z.Add tests z1 against NInfinity before any undefined combination is
reached. -/
theorem C1_opposite_infinities :
    (∀ n : Int, Z.pInf.Add (Z.fin n) = some Z.pInf) ∧
    Z.pInf.Add Z.nInf = none ∧
    Z.pInf.Sub Z.pInf = none ∧
    Z.nInf.Add Z.pInf = some Z.nInf ∧
    Z.nInf.Sub Z.nInf = some Z.nInf := by
  refine ⟨?_, by decide, by decide, by decide, by decide⟩
  intro n
  unfold Z.Add
  by_cases h : (Z.fin n).Sign = -1
  · rw [if_pos h]
    rfl
  · rw [if_neg h]
    rfl

/-- Witness for C1 at the finite addend seven. -/
theorem C1_opposite_infinities_witness : Z.pInf.Add (Z.fin 7) = some Z.pInf :=
  C1_opposite_infinities.1 7

/-- C5: an arithmetic constraint evaluates to the unknown interval, never
the empty one, when one operand range is unknown and the other known; and
when one operand range is the empty interval and the other known, it
evaluates to the empty interval, for each of the add, sub and mul combining
functions. -/
theorem C5_unknown_and_empty_propagation :
    (∀ (c : ArithmeticConstraint) (g : Graph),
      ((g.Range c.A).known = false ∧ (g.Range c.B).known = true) ∨
        ((g.Range c.A).known = true ∧ (g.Range c.B).known = false) →
      c.Eval g = some Interval.unknown ∧ Interval.unknown ≠ EmptyI) ∧
    (∀ (c : ArithmeticConstraint) (g : Graph),
      (c.Fn = Interval.Add ∨ c.Fn = Interval.Sub ∨ c.Fn = Interval.Mul) →
      ((g.Range c.A = EmptyI ∧ (g.Range c.B).known = true) ∨
        (g.Range c.B = EmptyI ∧ (g.Range c.A).known = true)) →
      c.Eval g = some EmptyI) := by
  constructor
  · intro c g h
    refine ⟨?_, by decide⟩
    simp only [ArithmeticConstraint.Eval]
    rcases h with ⟨h1, _⟩ | ⟨_, h2⟩
    · rw [if_pos (Or.inl h1)]
    · rw [if_pos (Or.inr h2)]
  · intro c g hfn h
    simp only [ArithmeticConstraint.Eval]
    have hA : (g.Range c.A).known = true := by
      rcases h with ⟨h1, _⟩ | ⟨_, h2⟩
      · rw [h1]
        rfl
      · exact h2
    have hB : (g.Range c.B).known = true := by
      rcases h with ⟨_, h2⟩ | ⟨h1, _⟩
      · exact h2
      · rw [h1]
        rfl
    rw [if_neg (by simp [hA, hB])]
    have hemp : (g.Range c.A).Empty = true ∨ (g.Range c.B).Empty = true := by
      rcases h with ⟨h1, _⟩ | ⟨h1, _⟩
      · left
        rw [h1]
        rfl
      · right
        rw [h1]
        rfl
    rcases hfn with hf | hf | hf <;> rw [hf]
    · unfold Interval.Add
      rw [if_pos hemp]
    · unfold Interval.Sub
      rw [if_pos hemp]
    · unfold Interval.Mul
      rw [if_pos hemp]

/-- Witness for C5: v0 unknown beside a known operand gives unknown, v0
empty beside a known operand gives empty. -/
theorem C5_unknown_and_empty_propagation_witness :
    cAdd.Eval g5unknown = some Interval.unknown ∧
    cAdd.Eval g5empty = some EmptyI :=
  ⟨(C5_unknown_and_empty_propagation.1 cAdd g5unknown
      (Or.inl ⟨by decide, by decide⟩)).1,
   C5_unknown_and_empty_propagation.2 cAdd g5empty (Or.inl rfl)
      (Or.inl ⟨by decide, by decide⟩)⟩

/-- C10: when one operand range is unknown and the other is the empty
interval, an arithmetic constraint evaluates to the unknown interval, not
the empty one: the unknown test precedes empty propagation. -/
theorem C10_unknown_checked_before_empty (c : ArithmeticConstraint)
    (g : Graph)
    (h : (g.Range c.A = Interval.unknown ∧ g.Range c.B = EmptyI) ∨
      (g.Range c.A = EmptyI ∧ g.Range c.B = Interval.unknown)) :
    c.Eval g = some Interval.unknown ∧ Interval.unknown ≠ EmptyI := by
  refine ⟨?_, by decide⟩
  simp only [ArithmeticConstraint.Eval]
  rcases h with ⟨h1, h2⟩ | ⟨h1, h2⟩ <;> rw [h1, h2] <;> rfl

/-- Witness for C10: v0 unknown and v1 empty under the add constraint. -/
theorem C10_unknown_checked_before_empty_witness :
    cAdd.Eval g10 = some Interval.unknown ∧ Interval.unknown ≠ EmptyI :=
  C10_unknown_checked_before_empty cAdd g10 (Or.inl ⟨by decide, by decide⟩)

/-- C9: every Eval reads nothing from the mapping beyond the ranges of the
values it consults, so two evaluations against mappings that agree there
(in particular, two evaluations against one unchanged mapping) return
identical results; the absence of writes in the Go code is mirrored by the
purely functional embedding, which returns a value and touches nothing. -/
theorem C9_eval_reads_only_operand_ranges :
    (∀ (c : ArithmeticConstraint) (g1 g2 : Graph),
      g1.Range c.A = g2.Range c.A → g1.Range c.B = g2.Range c.B →
      c.Eval g1 = c.Eval g2) ∧
    (∀ (c : IntConversionConstraint) (g1 g2 : Graph),
      g1.Range c.X = g2.Range c.X → g1.Range c.Y = g2.Range c.Y →
      c.Eval g1 = c.Eval g2) ∧
    (∀ (c : IntersectionConstraint) (g1 g2 : Graph),
      g1.Range c.X = g2.Range c.X → c.Eval g1 = c.Eval g2) ∧
    (∀ (c : FutureIntersectionConstraint) (g1 g2 : Graph),
      g1.Range c.X = g2.Range c.X → c.Eval g1 = c.Eval g2) ∧
    (∀ (c : IntervalConstraint) (g1 g2 : Graph), c.Eval g1 = c.Eval g2) := by
  refine ⟨?_, ?_, ?_, ?_, fun c g1 g2 => rfl⟩
  · intro c g1 g2 hA hB
    simp only [ArithmeticConstraint.Eval, hA, hB]
  · intro c g1 g2 hX hY
    simp only [IntConversionConstraint.Eval, hX, hY]
  · intro c g1 g2 hX
    simp only [IntersectionConstraint.Eval, hX]
  · intro c g1 g2 hX
    simp only [FutureIntersectionConstraint.Eval, hX]

/-- Witness for C9: two mappings that agree on v0, v1, v2 but differ on a
fourth value give the add constraint identical results. -/
theorem C9_eval_reads_only_operand_ranges_witness :
    cAdd.Eval ⟨fun v => if v.id ≤ 2 then some ⟨true, Z.fin 0, Z.fin 3⟩ else none⟩ =
    cAdd.Eval ⟨fun v => if v.id ≤ 2 then some ⟨true, Z.fin 0, Z.fin 3⟩ else some EmptyI⟩ :=
  C9_eval_reads_only_operand_ranges.1 cAdd _ _ (by decide) (by decide)

/-- The conversion source: an unsigned 1-byte value. -/
def x3 : Value := ⟨0, ⟨true, 1⟩⟩

/-- The conversion destination: an unsigned 4-byte value. -/
def y3 : Value := ⟨1, ⟨true, 4⟩⟩

/-- The widening conversion constraint of the example. -/
def cConv : IntConversionConstraint := ⟨x3, y3⟩

/-- A mapping where the source has range zero to three hundred and the
destination has no computed range yet. -/
def g3 : Graph :=
  ⟨fun v => if v.id = 0 then some ⟨true, Z.fin 0, Z.fin 300⟩ else none⟩

/-- C3: converting an unsigned 1-byte source with range zero to three
hundred into an unsigned 4-byte destination whose range is not yet computed
(the read accessor supplies the full unsigned range zero to positive
infinity) gives zero to 255: the lower bound clamped at zero and the upper
bound clamped at the 1-byte maximum. -/
theorem C3_conversion_example :
    cConv.Eval g3 = ⟨true, Z.fin 0, Z.fin 255⟩ := by decide

/-- The dependency value V of the future resolution examples. -/
def vDep : Value := ⟨1, i64T⟩

/-- Future constraint of the spec example: no lower dependency, upper
dependency vDep with offset minus one, bound not yet resolved; the snapshot
mapping gives vDep the range zero to ten. -/
def cFut : FutureIntersectionConstraint :=
  ⟨fun v => if v.id = 1 then some ⟨true, Z.fin 0, Z.fin 10⟩ else none,
   v0, v2, none, Z.fin 0, some vDep, Z.fin (-1), Interval.unknown, false⟩

/-- The example constraint after resolution wrote its bound. -/
def cFutResolved : FutureIntersectionConstraint :=
  { cFut with I := ⟨true, Z.nInf, Z.fin 9⟩, resolved := true }

/-- Source mapping of the example: v0 has range minus five to fifty. -/
def gFut : Graph :=
  ⟨fun v => if v.id = 0 then some ⟨true, Z.fin (-5), Z.fin 50⟩ else none⟩

/-- A future constraint with a lower dependency vDep of known range zero to
ten at offset zero, and no upper dependency. -/
def cFutLower : FutureIntersectionConstraint :=
  ⟨fun v => if v.id = 1 then some ⟨true, Z.fin 0, Z.fin 10⟩ else none,
   v0, v2, some vDep, Z.fin 0, none, Z.fin 0, Interval.unknown, false⟩

/-- C2 counterexample: with a lower dependency of known range zero to ten
and lower offset zero, Resolve computes the lower endpoint of the bound
from the dependency range lower component (zero), not from its
upper-range-component plus the offset (ten) as the claim states. -/
theorem C2_resolve_counterexample :
    cFutLower.Resolve = some ⟨true, Z.fin 0, Z.pInf⟩ ∧
    (Z.fin 10).Add cFutLower.lowerOffset = some (Z.fin 10) ∧
    Z.fin 0 ≠ Z.fin 10 := by decide

/-- C2 (amended): Resolve sets the lower endpoint of the bound to the lower
dependency range lower component plus lowerOffset when the lower dependency
is present with a known range, and to negative infinity when no lower
dependency is present; symmetrically the upper endpoint comes from the
upper dependency range upper component plus upperOffset, else positive
infinity; the bound is the normalized interval of the two endpoints. The
spec example holds: with no lower dependency and upper dependency V at
offset minus one where V has range zero to ten, the resolved bound is
negative infinity to nine, and evaluation against a source range minus five
to fifty yields minus five to nine. -/
theorem C2_future_resolution :
    (∀ (c : FutureIntersectionConstraint) (vl : Value) (il : Interval),
      c.lower = some vl → c.ranges vl = some il → il.known = true →
      c.resolveLower = il.lower.Add c.lowerOffset) ∧
    (∀ c : FutureIntersectionConstraint, c.lower = none →
      c.resolveLower = some Z.nInf) ∧
    (∀ (c : FutureIntersectionConstraint) (vu : Value) (iu : Interval),
      c.upper = some vu → c.ranges vu = some iu → iu.known = true →
      c.resolveUpper = iu.upper.Add c.upperOffset) ∧
    (∀ c : FutureIntersectionConstraint, c.upper = none →
      c.resolveUpper = some Z.pInf) ∧
    (∀ (c : FutureIntersectionConstraint) (l u : Z),
      c.resolveLower = some l → c.resolveUpper = some u →
      c.Resolve = some (NewInterval l u)) ∧
    cFut.Resolve = some ⟨true, Z.nInf, Z.fin 9⟩ ∧
    cFutResolved.Eval gFut = ⟨true, Z.fin (-5), Z.fin 9⟩ := by
  refine ⟨?_, ?_, ?_, ?_, ?_, by decide, by decide⟩
  · intro c vl il hl hr _
    simp only [FutureIntersectionConstraint.resolveLower, hl, hr,
      Option.getD_some]
  · intro c hl
    simp only [FutureIntersectionConstraint.resolveLower, hl]
  · intro c vu iu hu hr _
    simp only [FutureIntersectionConstraint.resolveUpper, hu, hr,
      Option.getD_some]
  · intro c hu
    simp only [FutureIntersectionConstraint.resolveUpper, hu]
  · intro c l u hl hu
    simp only [FutureIntersectionConstraint.Resolve, hl, hu]

/-- Witness for C2 applying each component at the two concrete constraints. -/
theorem C2_future_resolution_witness :
    cFutLower.resolveLower =
      (Interval.mk true (Z.fin 0) (Z.fin 10)).lower.Add cFutLower.lowerOffset ∧
    cFut.resolveLower = some Z.nInf ∧
    cFut.resolveUpper =
      (Interval.mk true (Z.fin 0) (Z.fin 10)).upper.Add cFut.upperOffset ∧
    cFutLower.resolveUpper = some Z.pInf ∧
    cFut.Resolve = some (NewInterval Z.nInf (Z.fin 9)) :=
  ⟨C2_future_resolution.1 cFutLower vDep ⟨true, Z.fin 0, Z.fin 10⟩
      rfl (by decide) rfl,
   C2_future_resolution.2.1 cFut rfl,
   C2_future_resolution.2.2.1 cFut vDep ⟨true, Z.fin 0, Z.fin 10⟩
      rfl (by decide) rfl,
   C2_future_resolution.2.2.2.1 cFutLower rfl,
   C2_future_resolution.2.2.2.2.1 cFut Z.nInf (Z.fin 9) (by decide) (by decide)⟩

/-- Intersection is commutative over well-formed intervals. -/
lemma Intersection_comm (i1 i2 : Interval) (h1 : i1.WF) (h2 : i2.WF) :
    i1.Intersection i2 = i2.Intersection i1 := by
  rcases h1 with rfl | rfl | ⟨hk1, hc1⟩ <;> rcases h2 with rfl | rfl | ⟨hk2, hc2⟩
  · rfl
  · decide
  · simp [Interval.Intersection, hk2, Interval.unknown_known]
  · decide
  · decide
  · simp [Interval.Intersection, hk2, Interval.Empty_eq_false hc2,
      EmptyI_known, EmptyI_Empty]
  · simp [Interval.Intersection, hk1, Interval.unknown_known]
  · simp [Interval.Intersection, hk1, Interval.Empty_eq_false hc1,
      EmptyI_known, EmptyI_Empty]
  · simp [Interval.Intersection, hk1, hk2, Interval.Empty_eq_false hc1,
      Interval.Empty_eq_false hc2]
    rw [Max2_comm i1.lower i2.lower, Min2_comm i1.upper i2.upper]

/-- Union is commutative over well-formed intervals away from the
empty-against-unknown pair. -/
lemma Union_comm (i1 i2 : Interval) (h1 : i1.WF) (h2 : i2.WF)
    (hx : ¬(i1 = EmptyI ∧ i2 = Interval.unknown))
    (hy : ¬(i1 = Interval.unknown ∧ i2 = EmptyI)) :
    i1.Union i2 = i2.Union i1 := by
  rcases h1 with rfl | rfl | ⟨hk1, hc1⟩ <;> rcases h2 with rfl | rfl | ⟨hk2, hc2⟩
  · rfl
  · exact absurd ⟨rfl, rfl⟩ hy
  · simp [Interval.Union, hk2, Interval.Empty_eq_false hc2,
      Interval.unknown_known, Interval.unknown_Empty]
  · exact absurd ⟨rfl, rfl⟩ hx
  · rfl
  · simp [Interval.Union, hk2, Interval.Empty_eq_false hc2,
      EmptyI_known, EmptyI_Empty]
  · simp [Interval.Union, hk1, Interval.Empty_eq_false hc1,
      Interval.unknown_known, Interval.unknown_Empty]
  · simp [Interval.Union, hk1, Interval.Empty_eq_false hc1,
      EmptyI_known, EmptyI_Empty]
  · simp [Interval.Union, hk1, hk2, Interval.Empty_eq_false hc1,
      Interval.Empty_eq_false hc2]
    rw [Min2_comm i1.lower i2.lower, Max2_comm i1.upper i2.upper]

/-- Intersection of a well-formed interval with itself is that interval. -/
lemma Intersection_idem (i : Interval) (h : i.WF) : i.Intersection i = i := by
  rcases h with rfl | rfl | ⟨hk, hc⟩
  · decide
  · decide
  · simp [Interval.Intersection, hk, Interval.Empty_eq_false hc,
      Max2_self, Min2_self]
    have hswap : ¬(i.upper.Cmp i.lower = -1) :=
      fun hcc => hc (Z.Cmp_eq_one_iff.mpr hcc)
    unfold NewInterval
    rw [if_neg hswap]
    show (if i.lower.Cmp i.upper = 1 then EmptyI
      else (⟨true, i.lower, i.upper⟩ : Interval)) = i
    rw [if_neg hc, ← hk]

/-- C4 counterexample: Union is not commutative on all intervals; with one
operand the canonical empty interval and the other the unknown one, each
argument order returns its second argument and the results differ. -/
theorem C4_union_counterexample :
    EmptyI.Union Interval.unknown = Interval.unknown ∧
    Interval.unknown.Union EmptyI = EmptyI ∧
    Interval.unknown.Union EmptyI ≠ EmptyI.Union Interval.unknown := by
  decide

/-- C4 (amended): over well-formed intervals (unknown, canonical empty, or
known with non-crossing bounds), Intersection is commutative and idempotent,
and Union is commutative except when one operand is the empty interval and
the other the unknown one. -/
theorem C4_lattice_laws (i1 i2 : Interval) (h1 : i1.WF) (h2 : i2.WF) :
    i1.Intersection i2 = i2.Intersection i1 ∧
    (¬(i1 = EmptyI ∧ i2 = Interval.unknown) →
      ¬(i1 = Interval.unknown ∧ i2 = EmptyI) →
      i1.Union i2 = i2.Union i1) ∧
    i1.Intersection i1 = i1 :=
  ⟨Intersection_comm i1 i2 h1 h2,
   fun hx hy => Union_comm i1 i2 h1 h2 hx hy,
   Intersection_idem i1 h1⟩

/-- Witness for C4 at the concrete intervals one to three and two to five. -/
theorem C4_lattice_laws_witness :
    ((⟨true, Z.fin 1, Z.fin 3⟩ : Interval).Intersection ⟨true, Z.fin 2, Z.fin 5⟩ =
      (⟨true, Z.fin 2, Z.fin 5⟩ : Interval).Intersection ⟨true, Z.fin 1, Z.fin 3⟩) ∧
    ((⟨true, Z.fin 1, Z.fin 3⟩ : Interval).Union ⟨true, Z.fin 2, Z.fin 5⟩ =
      (⟨true, Z.fin 2, Z.fin 5⟩ : Interval).Union ⟨true, Z.fin 1, Z.fin 3⟩) ∧
    (⟨true, Z.fin 1, Z.fin 3⟩ : Interval).Intersection ⟨true, Z.fin 1, Z.fin 3⟩ =
      ⟨true, Z.fin 1, Z.fin 3⟩ := by
  have h := C4_lattice_laws ⟨true, Z.fin 1, Z.fin 3⟩ ⟨true, Z.fin 2, Z.fin 5⟩
    (Or.inr (Or.inr ⟨rfl, by decide⟩)) (Or.inr (Or.inr ⟨rfl, by decide⟩))
  exact ⟨h.1, h.2.1 (by decide) (by decide), h.2.2⟩

/-- C6: interval multiplication propagates an empty operand, and on known
non-empty operands returns the known interval bounded below and above by
the least and greatest of the four corner products; the two spec examples
evaluate accordingly. -/
theorem C6_interval_mul :
    (∀ i1 i2 : Interval, (i1.Empty = true ∨ i2.Empty = true) →
      i1.Mul i2 = some EmptyI) ∧
    (∀ i1 i2 : Interval, i1.known = true → i2.known = true →
      i1.Empty = false → i2.Empty = false →
      ∃ l u : Z,
        i1.Mul i2 = some ⟨true, l, u⟩ ∧
        (l = i1.lower.Mul i2.lower ∨ l = i1.lower.Mul i2.upper ∨
          l = i1.upper.Mul i2.lower ∨ l = i1.upper.Mul i2.upper) ∧
        l.le (i1.lower.Mul i2.lower) ∧ l.le (i1.lower.Mul i2.upper) ∧
        l.le (i1.upper.Mul i2.lower) ∧ l.le (i1.upper.Mul i2.upper) ∧
        (u = i1.lower.Mul i2.lower ∨ u = i1.lower.Mul i2.upper ∨
          u = i1.upper.Mul i2.lower ∨ u = i1.upper.Mul i2.upper) ∧
        (i1.lower.Mul i2.lower).le u ∧ (i1.lower.Mul i2.upper).le u ∧
        (i1.upper.Mul i2.lower).le u ∧ (i1.upper.Mul i2.upper).le u) ∧
    (⟨true, Z.fin (-3), Z.fin (-1)⟩ : Interval).Mul ⟨true, Z.fin 2, Z.fin 4⟩ =
      some ⟨true, Z.fin (-12), Z.fin (-2)⟩ ∧
    (⟨true, Z.fin (-2), Z.fin 2⟩ : Interval).Mul ⟨true, Z.fin (-2), Z.fin 2⟩ =
      some ⟨true, Z.fin (-4), Z.fin 4⟩ := by
  refine ⟨?_, ?_, by decide, by decide⟩
  · intro i1 i2 h
    unfold Interval.Mul
    rw [if_pos h]
  · intro i1 i2 _ _ he1 he2
    refine ⟨Min4 (i1.lower.Mul i2.lower) (i1.lower.Mul i2.upper)
        (i1.upper.Mul i2.lower) (i1.upper.Mul i2.upper),
      Max4 (i1.lower.Mul i2.lower) (i1.lower.Mul i2.upper)
        (i1.upper.Mul i2.lower) (i1.upper.Mul i2.upper),
      ?_, Min4_mem _ _ _ _,
      (Min4_le_each _ _ _ _).1, (Min4_le_each _ _ _ _).2.1,
      (Min4_le_each _ _ _ _).2.2.1, (Min4_le_each _ _ _ _).2.2.2,
      Max4_mem _ _ _ _,
      (le_Max4_each _ _ _ _).1, (le_Max4_each _ _ _ _).2.1,
      (le_Max4_each _ _ _ _).2.2.1, (le_Max4_each _ _ _ _).2.2.2⟩
    unfold Interval.Mul
    rw [if_neg (by simp [he1, he2])]
    have hle : (Min4 (i1.lower.Mul i2.lower) (i1.lower.Mul i2.upper)
        (i1.upper.Mul i2.lower) (i1.upper.Mul i2.upper)).le
        (Max4 (i1.lower.Mul i2.lower) (i1.lower.Mul i2.upper)
          (i1.upper.Mul i2.lower) (i1.upper.Mul i2.upper)) :=
      Z.le_trans (Min4_le_each _ _ _ _).1 (le_Max4_each _ _ _ _).1
    have hne : ¬((Max4 (i1.lower.Mul i2.lower) (i1.lower.Mul i2.upper)
        (i1.upper.Mul i2.lower) (i1.upper.Mul i2.upper)).Cmp
        (Min4 (i1.lower.Mul i2.lower) (i1.lower.Mul i2.upper)
          (i1.upper.Mul i2.lower) (i1.upper.Mul i2.upper)) = -1) :=
      fun hcon => hle (Z.Cmp_eq_one_iff.mpr hcon)
    unfold NewInterval
    rw [if_neg hne]

/-- Witness for C6 at an empty left operand and at the intervals one to two
and three to four. -/
theorem C6_interval_mul_witness :
    EmptyI.Mul ⟨true, Z.fin 1, Z.fin 2⟩ = some EmptyI ∧
    (∃ l u : Z, (⟨true, Z.fin 1, Z.fin 2⟩ : Interval).Mul
      ⟨true, Z.fin 3, Z.fin 4⟩ = some ⟨true, l, u⟩) := by
  refine ⟨C6_interval_mul.1 EmptyI ⟨true, Z.fin 1, Z.fin 2⟩ (Or.inl rfl), ?_⟩
  obtain ⟨l, u, hmul, _⟩ := C6_interval_mul.2.1 ⟨true, Z.fin 1, Z.fin 2⟩
    ⟨true, Z.fin 3, Z.fin 4⟩ rfl rfl rfl rfl
  exact ⟨l, u, hmul⟩

end VRP
